import Mathlib

/-!
Verification of the skin-tone pipeline in `app/services/skin_tone.py`.

The arithmetic of the pipeline itself (masking, counting, averaging,
classification, per-channel adjustment) is embedded exactly, over rational-valued Lab pixels.
The RGB↔Lab colour-space conversion is an external collaborator of the
program (`skimage.color.rgb2lab` / `lab2rgb`); it is modelled as an explicit
parameter, fallible at the image level (`Option`) to reflect the `try/except`
wrappers in the source.
-/

/-- A decoded 8-bit RGB pixel (channel order R, G, B). -/
abbrev RGBPixel : Type := ℕ × ℕ × ℕ

/-- An RGB raster, flattened to a pixel list (the masks, counts, means and
per-pixel updates in the source are all position-independent). -/
abbrev RGBImage : Type := List RGBPixel

/-- A Lab pixel: lightness L, then the a and b chromaticity channels. -/
abbrev LabPixel : Type := ℚ × ℚ × ℚ

/-- A Lab image, same flattening as `RGBImage`. -/
abbrev LabImage : Type := List LabPixel

/-- The `SKIN_TONE_CATEGORIES` list from the source: the 7 category labels. -/
def SKIN_TONE_CATEGORIES : List String :=
  ["Fair", "Light", "Medium", "Olive", "Tan", "Deep", "Dark"]

/-- Inclusive range test `lo <= x <= hi`, as in the numpy comparisons. -/
def inBand (lo hi x : ℚ) : Bool :=
  decide (lo ≤ x) && decide (x ≤ hi)

/-- The strict skin mask of `detect_skin_tone`:
L∈[50,80] ∧ a∈[5,30] ∧ b∈[10,40], per pixel. -/
def strictMaskPixel (p : LabPixel) : Bool :=
  inBand 50 80 p.1 && inBand 5 30 p.2.1 && inBand 10 40 p.2.2

/-- The lenient skin mask (second pass of `detect_skin_tone`, and the only
pass of `adjust_skin_tone`): L∈[30,90] ∧ a∈[0,35] ∧ b∈[5,45], per pixel. -/
def lenientMaskPixel (p : LabPixel) : Bool :=
  inBand 30 90 p.1 && inBand 0 35 p.2.1 && inBand 5 45 p.2.2

/-- Mean of a list of rationals (`np.mean`); only used on nonempty lists. -/
def meanQ (xs : List ℚ) : ℚ :=
  xs.sum / (xs.length : ℚ)

/-- The descending first-match lightness cutoffs of `detect_skin_tone`. -/
def classifyL (avg_lightness : ℚ) : String :=
  if 75 ≤ avg_lightness then "Fair"
  else if 70 ≤ avg_lightness then "Light"
  else if 65 ≤ avg_lightness then "Medium"
  else if 60 ≤ avg_lightness then "Olive"
  else if 55 ≤ avg_lightness then "Tan"
  else if 50 ≤ avg_lightness then "Deep"
  else "Dark"

/-- The pixels selected by the final mask of `detect_skin_tone`: the strict
mask, replaced by the lenient mask when the strict count is below 100. -/
def finalSkinPixels (lab_image : LabImage) : List LabPixel :=
  let strictPixels := lab_image.filter strictMaskPixel
  if strictPixels.length < 100 then lab_image.filter lenientMaskPixel
  else strictPixels

/-- Body of `detect_skin_tone` after the Lab conversion: `"Medium"` when the
final mask count is below 100, otherwise classification of the mean L of the
masked pixels. -/
def detectFromLab (lab_image : LabImage) : String :=
  let skinPixels := finalSkinPixels lab_image
  if skinPixels.length < 100 then "Medium"
  else classifyL (meanQ (skinPixels.map (fun p => p.1)))

/-- Function `detect_skin_tone`: Lab conversion (fallible external collaborator,
`none` = the conversion raised, caught by the `except` clause in the source,
which returns `"Medium"`), then `detectFromLab`. -/
def detect_skin_tone (rgb2lab : RGBImage → Option LabImage)
    (image : RGBImage) : String :=
  match rgb2lab image with
  | none => "Medium"
  | some lab_image => detectFromLab lab_image

/-- The `COLOR_RECOMMENDATIONS` table from the source, verbatim. -/
def COLOR_RECOMMENDATIONS : List (String × List String) :=
  [("Fair",
    ["#E6B3B3", "#D1E6B3", "#B3E6CC", "#B3CCE6", "#D1B3E6", "#800000",
     "#008080"]),
   ("Light",
    ["#FFB6C1", "#98FB98", "#ADD8E6", "#DDA0DD", "#F08080", "#4682B4",
     "#556B2F"]),
   ("Medium",
    ["#FF6347", "#6B8E23", "#4169E1", "#BA55D3", "#20B2AA", "#CD5C5C",
     "#DAA520"]),
   ("Olive",
    ["#FF4500", "#2E8B57", "#9932CC", "#8B4513", "#008B8B", "#B8860B",
     "#C71585"]),
   ("Tan",
    ["#FF8C00", "#006400", "#8B008B", "#E9967A", "#8FBC8F", "#483D8B",
     "#B22222"]),
   ("Deep",
    ["#FFA500", "#00FF00", "#FF00FF", "#00FFFF", "#FFFF00", "#800080",
     "#DC143C"]),
   ("Dark",
    ["#FFD700", "#7CFC00", "#FF1493", "#00BFFF", "#F0E68C", "#ADFF2F",
     "#FF69B4"])]

/-- Function `get_color_recommendations`: exact key lookup in the table, with the
`"Medium"` row as the fallback for unrecognised keys. -/
def get_color_recommendations (skin_tone : String) : List String :=
  match COLOR_RECOMMENDATIONS.lookup skin_tone with
  | some colors => colors
  | none => (COLOR_RECOMMENDATIONS.lookup "Medium").getD []

/-- The `target_l_values` dict of `adjust_skin_tone`, verbatim. -/
def target_l_values : List (String × ℚ) :=
  [("Fair", 78), ("Light", 72), ("Medium", 65), ("Olive", 62),
   ("Tan", 58), ("Deep", 52), ("Dark", 45)]

/-- The `target_a_adjustments` dict of `adjust_skin_tone`, verbatim. -/
def target_a_adjustments : List (String × ℚ) :=
  [("Fair", -2), ("Light", -1), ("Medium", 0), ("Olive", 1),
   ("Tan", 2), ("Deep", 3), ("Dark", 4)]

/-- The `target_b_adjustments` dict of `adjust_skin_tone`, verbatim. -/
def target_b_adjustments : List (String × ℚ) :=
  [("Fair", -2), ("Light", -1), ("Medium", 0), ("Olive", 2),
   ("Tan", 4), ("Deep", 5), ("Dark", 6)]

/-- Clipping, as in `np.clip x lo hi`. -/
def clip (lo hi x : ℚ) : ℚ :=
  max lo (min hi x)

/-- The `current_l` value of `adjust_skin_tone`: mean L over lenient-masked pixels,
or the constant 65 when the mask is empty. -/
def currentL (lab_image : LabImage) : ℚ :=
  let masked := lab_image.filter lenientMaskPixel
  if 0 < masked.length then meanQ (masked.map (fun p => p.1)) else 65

/-- The Lab-space body of `adjust_skin_tone`: uniform additive shift of the
lenient-masked pixels, per channel, with the clip bounds of the source; unmasked
pixels are copied unchanged. -/
def adjustLab (lab_image : LabImage) (target_tone : String) : LabImage :=
  let target_l := (target_l_values.lookup target_tone).getD 65
  let l_adjustment := target_l - currentL lab_image
  let a_adjustment := (target_a_adjustments.lookup target_tone).getD 0
  let b_adjustment := (target_b_adjustments.lookup target_tone).getD 0
  lab_image.map (fun p =>
    if lenientMaskPixel p then
      (clip 0 100 (p.1 + l_adjustment),
       clip (-127) 127 (p.2.1 + a_adjustment),
       clip (-127) 127 (p.2.2 + b_adjustment))
    else p)

/-- Behaviour of `np.clip(v * 255, 0, 255).astype(np.uint8)` on one unit-scale channel:
scale, clip, truncate to an 8-bit sample. -/
def quantizeChannel (v : ℚ) : ℕ :=
  Int.toNat ⌊clip 0 255 (v * 255)⌋

/-- Quantisation of one unit-scale RGB pixel to 8-bit samples. -/
def quantizePixel (p : ℚ × ℚ × ℚ) : RGBPixel :=
  (quantizeChannel p.1, quantizeChannel p.2.1, quantizeChannel p.2.2)

/-- Function `adjust_skin_tone`: Lab conversion, Lab-space adjustment, inverse
conversion (`lab2rgb`, unit-scale output), then 8-bit quantisation.  A
`none` from either conversion models an exception, caught by the `except`
clause in the source, which returns the original image. -/
def adjust_skin_tone (rgb2lab : RGBImage → Option LabImage)
    (lab2rgb : LabImage → Option (List (ℚ × ℚ × ℚ)))
    (image : RGBImage) (target_tone : String) : RGBImage :=
  match rgb2lab image with
  | none => image
  | some lab_image =>
    match lab2rgb (adjustLab lab_image target_tone) with
    | none => image
    | some unit_rgb => unit_rgb.map quantizePixel

/-- Channel distance between two 8-bit pixels, for round-trip tolerances. -/
def pixDist (p q : RGBPixel) : ℕ :=
  max (Nat.dist p.1 q.1) (max (Nat.dist p.2.1 q.2.1) (Nat.dist p.2.2 q.2.2))

/-- Case folding of a string, character by character (claim-side notion used
to talk about strings differing only in letter case). -/
def lowercased (s : String) : List Char :=
  s.data.map Char.toLower

/-- String `s` differs from `c` only in letter case (and is not `c` itself). -/
def caseVariantOf (s c : String) : Prop :=
  lowercased s = lowercased c ∧ s ≠ c

/-! ### Helper lemmas -/

lemma strictMaskPixel_imp_lenient (p : LabPixel)
    (h : strictMaskPixel p = true) : lenientMaskPixel p = true := by
  simp only [strictMaskPixel, inBand, Bool.and_eq_true, decide_eq_true_eq] at h
  obtain ⟨⟨⟨hL1, hL2⟩, hA1, hA2⟩, hB1, hB2⟩ := h
  simp only [lenientMaskPixel, inBand, Bool.and_eq_true, decide_eq_true_eq]
  exact ⟨⟨⟨by linarith, by linarith⟩, by linarith, by linarith⟩,
    by linarith, by linarith⟩

lemma length_filter_mono {α : Type} (p q : α → Bool) (l : List α)
    (h : ∀ a, p a = true → q a = true) :
    (l.filter p).length ≤ (l.filter q).length := by
  induction l with
  | nil => simp
  | cons a t ih =>
    by_cases hp : p a = true
    · simp [List.filter_cons, hp, h a hp]
      omega
    · by_cases hq : q a = true <;>
        simp [List.filter_cons, hp, hq] <;> omega

lemma meanQ_replicate (n : ℕ) (a : ℚ) (h : n ≠ 0) :
    meanQ (List.replicate n a) = a := by
  have hn : (n : ℚ) ≠ 0 := Nat.cast_ne_zero.mpr h
  simp only [meanQ, List.sum_replicate, List.length_replicate, nsmul_eq_mul]
  field_simp

lemma getD_map_lt {α β : Type} (f : α → β) (l : List α) (i : ℕ) (d : β)
    (e : α) (h : i < l.length) :
    (l.map f).getD i d = f (l.getD i e) := by
  simp [List.getD_eq_getElem?_getD, List.getElem?_map,
    List.getElem?_eq_getElem h]

lemma lookup_mem {β : Type} :
    ∀ (l : List (String × β)) (k : String) (v : β),
      l.lookup k = some v → (k, v) ∈ l := by
  intro l
  induction l with
  | nil => intro k v h; simp at h
  | cons p t ih =>
    intro k v h
    obtain ⟨a, b⟩ := p
    rw [List.lookup_cons] at h
    by_cases hk : (k == a) = true
    · have hk2 : k = a := by simpa using hk
      subst hk2
      simp at h
      subst h
      exact List.mem_cons_self _ _
    · rw [Bool.not_eq_true] at hk
      rw [hk] at h
      exact List.mem_cons_of_mem _ (ih k v h)

lemma lookup_eq_none_of_not_mem {β : Type} (s : String)
    (l : List (String × β)) (h : ∀ p ∈ l, p.1 ≠ s) :
    l.lookup s = none := by
  rw [List.lookup_eq_none_iff]
  intro p hp
  simpa using (h p hp).symm

lemma classifyL_mem (x : ℚ) : classifyL x ∈ SKIN_TONE_CATEGORIES := by
  unfold classifyL
  split_ifs <;> decide

lemma finalSkinPixels_of_strict (lab_image : LabImage)
    (h : 100 ≤ (lab_image.filter strictMaskPixel).length) :
    finalSkinPixels lab_image = lab_image.filter strictMaskPixel := by
  unfold finalSkinPixels
  rw [if_neg (by omega)]

lemma finalSkinPixels_of_lenient (lab_image : LabImage)
    (h : (lab_image.filter strictMaskPixel).length < 100) :
    finalSkinPixels lab_image = lab_image.filter lenientMaskPixel := by
  unfold finalSkinPixels
  rw [if_pos h]

lemma detectFromLab_of_large (lab_image : LabImage)
    (h : 100 ≤ (finalSkinPixels lab_image).length) :
    detectFromLab lab_image =
      classifyL (meanQ ((finalSkinPixels lab_image).map (fun p => p.1))) := by
  unfold detectFromLab
  rw [if_neg (by omega)]

lemma detectFromLab_of_small (lab_image : LabImage)
    (h : (finalSkinPixels lab_image).length < 100) :
    detectFromLab lab_image = "Medium" := by
  unfold detectFromLab
  rw [if_pos h]

lemma color_keys_mem :
    ∀ p ∈ COLOR_RECOMMENDATIONS, p.1 ∈ SKIN_TONE_CATEGORIES := by decide

lemma color_values_length : ∀ p ∈ COLOR_RECOMMENDATIONS, p.2.length = 7 := by
  decide

lemma target_l_keys_mem :
    ∀ p ∈ target_l_values, p.1 ∈ SKIN_TONE_CATEGORIES := by decide

lemma target_a_keys_mem :
    ∀ p ∈ target_a_adjustments, p.1 ∈ SKIN_TONE_CATEGORIES := by decide

lemma target_b_keys_mem :
    ∀ p ∈ target_b_adjustments, p.1 ∈ SKIN_TONE_CATEGORIES := by decide

lemma not_mem_lookups (s : String) (hs : s ∉ SKIN_TONE_CATEGORIES) :
    COLOR_RECOMMENDATIONS.lookup s = none ∧
    target_l_values.lookup s = none ∧
    target_a_adjustments.lookup s = none ∧
    target_b_adjustments.lookup s = none := by
  refine ⟨?_, ?_, ?_, ?_⟩ <;>
    [exact lookup_eq_none_of_not_mem s _
      (fun p hp heq => hs (heq ▸ color_keys_mem p hp));
     exact lookup_eq_none_of_not_mem s _
      (fun p hp heq => hs (heq ▸ target_l_keys_mem p hp));
     exact lookup_eq_none_of_not_mem s _
      (fun p hp heq => hs (heq ▸ target_a_keys_mem p hp));
     exact lookup_eq_none_of_not_mem s _
      (fun p hp heq => hs (heq ▸ target_b_keys_mem p hp))]

/-! ### Claims -/

/-- C1: for every RGB raster whose final skin mask (strict pass, or lenient
pass if the strict count was below 100) contains at least 100 pixels,
`detect_skin_tone` returns the category given by the mean L of the masked
pixels under the descending first-match cutoffs; in particular a masked mean
lightness of 77 classifies as Fair, 52 as Deep, and 40 as Dark. -/
theorem C1_classification_by_mean_L :
    (∀ (rgb2lab : RGBImage → Option LabImage) (image : RGBImage)
        (lab_image : LabImage),
      rgb2lab image = some lab_image →
      100 ≤ (finalSkinPixels lab_image).length →
      detect_skin_tone rgb2lab image =
        classifyL (meanQ ((finalSkinPixels lab_image).map (fun p => p.1)))) ∧
    classifyL 77 = "Fair" ∧ classifyL 52 = "Deep" ∧ classifyL 40 = "Dark" := by
  refine ⟨?_, by decide, by decide, by decide⟩
  intro rgb2lab image lab_image hconv h
  simp only [detect_skin_tone, hconv]
  exact detectFromLab_of_large _ h

/-- Witness for C1 at a concrete raster: a conversion sending the raster to
100 Lab pixels of lightness 77 inside the strict band makes
`detect_skin_tone` answer Fair. -/
theorem C1_witness :
    detect_skin_tone
      (fun _ => some (List.replicate 100 ((77 : ℚ), (10 : ℚ), (20 : ℚ))))
      [] = "Fair" := by
  have hfilter : (List.replicate 100 ((77 : ℚ), (10 : ℚ), (20 : ℚ))).filter
      strictMaskPixel = List.replicate 100 ((77 : ℚ), (10 : ℚ), (20 : ℚ)) :=
    List.filter_replicate_of_pos (by decide)
  have hfin : finalSkinPixels (List.replicate 100 ((77 : ℚ), (10 : ℚ), (20 : ℚ)))
      = List.replicate 100 ((77 : ℚ), (10 : ℚ), (20 : ℚ)) := by
    rw [finalSkinPixels_of_strict, hfilter]
    rw [hfilter]; simp
  have h100 : 100 ≤ (finalSkinPixels
      (List.replicate 100 ((77 : ℚ), (10 : ℚ), (20 : ℚ)))).length := by
    rw [hfin]; simp
  rw [C1_classification_by_mean_L.1 _ [] _ rfl h100, hfin, List.map_replicate,
    meanQ_replicate 100 77 (by decide)]
  exact C1_classification_by_mean_L.2.1

/-- C2: the strict and lenient masks are conjunctions of inclusive
per-channel range tests with the stated constants; `detect_skin_tone`
classifies over the strict mask when it has at least 100 pixels, recomputes
with the lenient mask when the strict count is below 100, and returns
Medium when the lenient count is also below 100. -/
theorem C2_mask_policy :
    (∀ p : LabPixel,
      (strictMaskPixel p = true ↔
        (50 ≤ p.1 ∧ p.1 ≤ 80 ∧ 5 ≤ p.2.1 ∧ p.2.1 ≤ 30 ∧
         10 ≤ p.2.2 ∧ p.2.2 ≤ 40)) ∧
      (lenientMaskPixel p = true ↔
        (30 ≤ p.1 ∧ p.1 ≤ 90 ∧ 0 ≤ p.2.1 ∧ p.2.1 ≤ 35 ∧
         5 ≤ p.2.2 ∧ p.2.2 ≤ 45))) ∧
    (∀ (rgb2lab : RGBImage → Option LabImage) (image : RGBImage)
        (lab_image : LabImage),
      rgb2lab image = some lab_image →
      (100 ≤ (lab_image.filter strictMaskPixel).length →
        detect_skin_tone rgb2lab image =
          classifyL (meanQ ((lab_image.filter strictMaskPixel).map
            (fun p => p.1)))) ∧
      ((lab_image.filter strictMaskPixel).length < 100 →
        100 ≤ (lab_image.filter lenientMaskPixel).length →
        detect_skin_tone rgb2lab image =
          classifyL (meanQ ((lab_image.filter lenientMaskPixel).map
            (fun p => p.1)))) ∧
      ((lab_image.filter strictMaskPixel).length < 100 →
        (lab_image.filter lenientMaskPixel).length < 100 →
        detect_skin_tone rgb2lab image = "Medium")) := by
  constructor
  · intro p
    constructor <;>
      simp [strictMaskPixel, lenientMaskPixel, inBand, Bool.and_eq_true,
        decide_eq_true_eq, and_assoc]
  · intro rgb2lab image lab_image hconv
    simp only [detect_skin_tone, hconv]
    refine ⟨?_, ?_, ?_⟩
    · intro h
      have hf := finalSkinPixels_of_strict lab_image h
      rw [detectFromLab_of_large _ (by rw [hf]; exact h), hf]
    · intro h1 h2
      have hf := finalSkinPixels_of_lenient lab_image h1
      rw [detectFromLab_of_large _ (by rw [hf]; exact h2), hf]
    · intro h1 h2
      have hf := finalSkinPixels_of_lenient lab_image h1
      exact detectFromLab_of_small _ (by rw [hf]; exact h2)

/-- Witness for C2 at concrete inputs: a pixel inside the strict band passes
the band characterisation, and an image with an empty Lab raster falls back
to Medium through both passes. -/
theorem C2_witness :
    (50 ≤ (77 : ℚ) ∧ (77 : ℚ) ≤ 80 ∧ 5 ≤ (10 : ℚ) ∧ (10 : ℚ) ≤ 30 ∧
      10 ≤ (20 : ℚ) ∧ (20 : ℚ) ≤ 40) ∧
    detect_skin_tone (fun _ => some []) [] = "Medium" :=
  ⟨(C2_mask_policy.1 ((77 : ℚ), (10 : ℚ), (20 : ℚ))).1.mp (by decide),
   ((C2_mask_policy.2 _ [] [] rfl).2.2 (by simp) (by simp))⟩

/-- C7: every pixel of the strict band is in the lenient band, hence on any
Lab image the lenient mask has at least as many true pixels as the strict
mask. -/
theorem C7_mask_monotonicity :
    (∀ p : LabPixel, strictMaskPixel p = true → lenientMaskPixel p = true) ∧
    (∀ lab_image : LabImage,
      (lab_image.filter strictMaskPixel).length ≤
        (lab_image.filter lenientMaskPixel).length) :=
  ⟨strictMaskPixel_imp_lenient,
   fun lab_image =>
     length_filter_mono _ _ lab_image strictMaskPixel_imp_lenient⟩

/-- Witness for C7 at a concrete pixel and image: the strict-band pixel
(77, 10, 20) is also lenient, and the counts compare on a two-pixel image. -/
theorem C7_witness :
    lenientMaskPixel ((77 : ℚ), (10 : ℚ), (20 : ℚ)) = true ∧
    ([((77 : ℚ), (10 : ℚ), (20 : ℚ)), ((33 : ℚ), (1 : ℚ), (7 : ℚ))].filter
        strictMaskPixel).length ≤
      ([((77 : ℚ), (10 : ℚ), (20 : ℚ)), ((33 : ℚ), (1 : ℚ), (7 : ℚ))].filter
        lenientMaskPixel).length :=
  ⟨C7_mask_monotonicity.1 _ (by decide), C7_mask_monotonicity.2 _⟩

/-- C9: when no pixel of the converted raster lies in the lenient band (and
hence none in the strict band either), `detect_skin_tone` returns Medium.
The pure-blue instance is in the witness: the standard conversion sends
RGB (0, 0, 255) to a Lab pixel whose a channel (around 79) exceeds 35, so
every pixel fails both bands. -/
theorem C9_all_pixels_outside_bands :
    ∀ (rgb2lab : RGBImage → Option LabImage) (image : RGBImage)
      (lab_image : LabImage),
      rgb2lab image = some lab_image →
      (∀ p ∈ lab_image, lenientMaskPixel p = false) →
      detect_skin_tone rgb2lab image = "Medium" := by
  intro rgb2lab image lab_image hconv hp
  have hlen : lab_image.filter lenientMaskPixel = [] := by
    rw [List.filter_eq_nil_iff]
    intro a ha
    simp [hp a ha]
  have hstrict : lab_image.filter strictMaskPixel = [] := by
    rw [List.filter_eq_nil_iff]
    intro a ha
    simp only [Bool.not_eq_true]
    cases hs : strictMaskPixel a with
    | false => rfl
    | true =>
      have := strictMaskPixel_imp_lenient a hs
      rw [hp a ha] at this
      exact this.symm
  simp only [detect_skin_tone, hconv]
  apply detectFromLab_of_small
  rw [finalSkinPixels_of_lenient _ (by rw [hstrict]; simp), hlen]
  simp

/-- Witness for C9: a uniform pure-blue raster, under a conversion sending
every pixel to the (rounded) Lab value of blue, detects as Medium. -/
theorem C9_witness :
    detect_skin_tone
      (fun im => some (im.map (fun _ => ((32 : ℚ), (79 : ℚ), (-108 : ℚ)))))
      (List.replicate 5 ((0 : ℕ), (0 : ℕ), (255 : ℕ))) = "Medium" :=
  C9_all_pixels_outside_bands _ _ _ rfl (by decide)

/-- C4: `get_color_recommendations` returns exactly the stored 7-entry hex
sequence for a known category (known category keys always have a stored
row), returns the Medium row for any other string, and is total: its result
has length 7 on every input. -/
theorem C4_palette_lookup :
    ∀ s : String,
      (∀ v, COLOR_RECOMMENDATIONS.lookup s = some v →
        get_color_recommendations s = v ∧ v.length = 7) ∧
      (s ∈ SKIN_TONE_CATEGORIES →
        (COLOR_RECOMMENDATIONS.lookup s).isSome = true) ∧
      (get_color_recommendations s).length = 7 ∧
      (s ∉ SKIN_TONE_CATEGORIES →
        get_color_recommendations s =
          (COLOR_RECOMMENDATIONS.lookup "Medium").getD []) := by
  intro s
  refine ⟨?_, ?_, ?_, ?_⟩
  · intro v hv
    exact ⟨by simp [get_color_recommendations, hv],
      color_values_length _ (lookup_mem _ _ _ hv)⟩
  · intro hs
    simp only [SKIN_TONE_CATEGORIES, List.mem_cons, List.not_mem_nil,
      or_false] at hs
    rcases hs with rfl | rfl | rfl | rfl | rfl | rfl | rfl <;> decide
  · cases hv : COLOR_RECOMMENDATIONS.lookup s with
    | none =>
      simp only [get_color_recommendations, hv]
      decide
    | some v =>
      have hlen := color_values_length _ (lookup_mem _ _ _ hv)
      simp [get_color_recommendations, hv, hlen]
  · intro hs
    have h := (not_mem_lookups s hs).1
    simp [get_color_recommendations, h]

/-- Witness for C4 at concrete inputs: the Fair palette comes back verbatim
and an unknown string falls back to the Medium row. -/
theorem C4_witness :
    get_color_recommendations "Fair" =
      ["#E6B3B3", "#D1E6B3", "#B3E6CC", "#B3CCE6", "#D1B3E6", "#800000",
       "#008080"] ∧
    get_color_recommendations "Turquoise" =
      (COLOR_RECOMMENDATIONS.lookup "Medium").getD [] :=
  ⟨((C4_palette_lookup "Fair").1 _ rfl).1,
   (C4_palette_lookup "Turquoise").2.2.2 (by decide)⟩

/-- C6: `detect_skin_tone` always lands in the 7 enumerated categories; when
the forward conversion fails it returns Medium and `adjust_skin_tone`
returns the input raster unchanged; when the inverse conversion fails
`adjust_skin_tone` also returns the input raster unchanged. (Absence of
in-place mutation is inherent to the embedding: every operation builds a new
list.) -/
theorem C6_never_raises :
    ∀ (rgb2lab : RGBImage → Option LabImage)
      (lab2rgb : LabImage → Option (List (ℚ × ℚ × ℚ)))
      (image : RGBImage) (target_tone : String),
      detect_skin_tone rgb2lab image ∈ SKIN_TONE_CATEGORIES ∧
      (rgb2lab image = none →
        detect_skin_tone rgb2lab image = "Medium" ∧
        adjust_skin_tone rgb2lab lab2rgb image target_tone = image) ∧
      (∀ lab_image, rgb2lab image = some lab_image →
        lab2rgb (adjustLab lab_image target_tone) = none →
        adjust_skin_tone rgb2lab lab2rgb image target_tone = image) := by
  intro rgb2lab lab2rgb image target_tone
  refine ⟨?_, ?_, ?_⟩
  · cases hc : rgb2lab image with
    | none => simp [detect_skin_tone, hc, SKIN_TONE_CATEGORIES]
    | some lab_image =>
      simp only [detect_skin_tone, hc, detectFromLab]
      split
      · decide
      · exact classifyL_mem _
  · intro h
    constructor <;> simp [detect_skin_tone, adjust_skin_tone, h]
  · intro lab_image hc hi
    simp [adjust_skin_tone, hc, hi]

/-- Witness for C6 at concrete inputs: a failing forward conversion gives
Medium and the untouched raster; a failing inverse conversion also gives the
untouched raster. -/
theorem C6_witness :
    detect_skin_tone (fun _ => none) [((1 : ℕ), (2 : ℕ), (3 : ℕ))] =
      "Medium" ∧
    adjust_skin_tone (fun _ => none) (fun _ => none)
      [((1 : ℕ), (2 : ℕ), (3 : ℕ))] "Fair" =
      [((1 : ℕ), (2 : ℕ), (3 : ℕ))] ∧
    adjust_skin_tone (fun _ => some []) (fun _ => none)
      [((1 : ℕ), (2 : ℕ), (3 : ℕ))] "Fair" =
      [((1 : ℕ), (2 : ℕ), (3 : ℕ))] :=
  ⟨((C6_never_raises (fun _ => none) (fun _ => none) _ "Fair").2.1 rfl).1,
   ((C6_never_raises (fun _ => none) (fun _ => none) _ "Fair").2.1 rfl).2,
   (C6_never_raises (fun _ => some []) (fun _ => none) _ "Fair").2.2 []
     rfl rfl⟩

/-- C8: both operations are deterministic functions of their arguments: two
runs on equal inputs give equal outputs. (The source keeps no module-level
mutable state; its lookup tables are constants, which the embedding reflects
by making both operations plain functions.) -/
theorem C8_determinism :
    ∀ (rgb2lab : RGBImage → Option LabImage)
      (lab2rgb : LabImage → Option (List (ℚ × ℚ × ℚ)))
      (image1 image2 : RGBImage) (tone1 tone2 : String),
      image1 = image2 → tone1 = tone2 →
      detect_skin_tone rgb2lab image1 = detect_skin_tone rgb2lab image2 ∧
      adjust_skin_tone rgb2lab lab2rgb image1 tone1 =
        adjust_skin_tone rgb2lab lab2rgb image2 tone2 := by
  intro rgb2lab lab2rgb image1 image2 tone1 tone2 h1 h2
  subst h1; subst h2
  exact ⟨rfl, rfl⟩

/-- Witness for C8 at concrete inputs. -/
theorem C8_witness :
    detect_skin_tone (fun _ => none) [((9 : ℕ), (9 : ℕ), (9 : ℕ))] =
      detect_skin_tone (fun _ => none) [((9 : ℕ), (9 : ℕ), (9 : ℕ))] ∧
    adjust_skin_tone (fun _ => none) (fun _ => none)
        [((9 : ℕ), (9 : ℕ), (9 : ℕ))] "Deep" =
      adjust_skin_tone (fun _ => none) (fun _ => none)
        [((9 : ℕ), (9 : ℕ), (9 : ℕ))] "Deep" :=
  C8_determinism (fun _ => none) (fun _ => none) _ _ "Deep" "Deep" rfl rfl

/-- C10: category matching is exact and case-sensitive: a string that
differs from a known category name only in letter case gets the Medium
palette from `get_color_recommendations`, and the default target lightness
65 and zero a/b offsets in the adjustment tables. -/
theorem C10_case_sensitive_lookup :
    ∀ s c : String, c ∈ SKIN_TONE_CATEGORIES → caseVariantOf s c →
      get_color_recommendations s =
        (COLOR_RECOMMENDATIONS.lookup "Medium").getD [] ∧
      (target_l_values.lookup s).getD 65 = 65 ∧
      (target_a_adjustments.lookup s).getD 0 = 0 ∧
      (target_b_adjustments.lookup s).getD 0 = 0 := by
  intro s c hc hcv
  have hs : s ∉ SKIN_TONE_CATEGORIES := by
    intro hs
    obtain ⟨hl, hne⟩ := hcv
    simp only [SKIN_TONE_CATEGORIES, List.mem_cons, List.not_mem_nil,
      or_false] at hs hc
    rcases hs with rfl | rfl | rfl | rfl | rfl | rfl | rfl <;>
      rcases hc with rfl | rfl | rfl | rfl | rfl | rfl | rfl <;>
      first
        | exact hne rfl
        | exact absurd hl (by decide)
  obtain ⟨hcr, hl, ha, hb⟩ := not_mem_lookups s hs
  exact ⟨by simp [get_color_recommendations, hcr], by simp [hl],
    by simp [ha], by simp [hb]⟩

/-- Witness for C10 at the concrete case variants fair and MEDIUM. -/
theorem C10_witness :
    (get_color_recommendations "fair" =
        (COLOR_RECOMMENDATIONS.lookup "Medium").getD [] ∧
      (target_l_values.lookup "fair").getD 65 = 65 ∧
      (target_a_adjustments.lookup "fair").getD 0 = 0 ∧
      (target_b_adjustments.lookup "fair").getD 0 = 0) ∧
    (get_color_recommendations "MEDIUM" =
        (COLOR_RECOMMENDATIONS.lookup "Medium").getD [] ∧
      (target_l_values.lookup "MEDIUM").getD 65 = 65 ∧
      (target_a_adjustments.lookup "MEDIUM").getD 0 = 0 ∧
      (target_b_adjustments.lookup "MEDIUM").getD 0 = 0) :=
  ⟨C10_case_sensitive_lookup "fair" "Fair" (by decide)
     ⟨by decide, by decide⟩,
   C10_case_sensitive_lookup "MEDIUM" "Medium" (by decide)
     ⟨by decide, by decide⟩⟩

/-- C3: `adjust_skin_tone` masks with the single lenient band and replaces
each masked pixel by the clipped uniform additive shift, with `current_l`
the mean L over masked pixels (65 when the mask is empty), `target_l` from
the fixed table (default 65, e.g. for Not-A-Category), and the fixed a/b
offsets (default 0); the adjusted Lab image is then inverse-converted and
quantised to 8-bit. -/
theorem C3_adjustment_behaviour :
    (∀ (lab_image : LabImage) (target_tone : String) (i : ℕ),
      i < lab_image.length →
      lenientMaskPixel (lab_image.getD i (0, 0, 0)) = true →
      (adjustLab lab_image target_tone).getD i (0, 0, 0) =
        (clip 0 100 ((lab_image.getD i (0, 0, 0)).1 +
           ((target_l_values.lookup target_tone).getD 65 -
             currentL lab_image)),
         clip (-127) 127 ((lab_image.getD i (0, 0, 0)).2.1 +
           (target_a_adjustments.lookup target_tone).getD 0),
         clip (-127) 127 ((lab_image.getD i (0, 0, 0)).2.2 +
           (target_b_adjustments.lookup target_tone).getD 0))) ∧
    (∀ lab_image : LabImage,
      (0 < (lab_image.filter lenientMaskPixel).length →
        currentL lab_image =
          meanQ ((lab_image.filter lenientMaskPixel).map (fun p => p.1))) ∧
      ((lab_image.filter lenientMaskPixel).length = 0 →
        currentL lab_image = 65)) ∧
    ((target_l_values.lookup "Fair").getD 65 = 78 ∧
     (target_l_values.lookup "Light").getD 65 = 72 ∧
     (target_l_values.lookup "Medium").getD 65 = 65 ∧
     (target_l_values.lookup "Olive").getD 65 = 62 ∧
     (target_l_values.lookup "Tan").getD 65 = 58 ∧
     (target_l_values.lookup "Deep").getD 65 = 52 ∧
     (target_l_values.lookup "Dark").getD 65 = 45 ∧
     (target_l_values.lookup "Not-A-Category").getD 65 = 65 ∧
     (target_a_adjustments.lookup "Not-A-Category").getD 0 = 0 ∧
     (target_b_adjustments.lookup "Not-A-Category").getD 0 = 0) ∧
    (∀ t : String, t ∉ SKIN_TONE_CATEGORIES →
      (target_l_values.lookup t).getD 65 = 65 ∧
      (target_a_adjustments.lookup t).getD 0 = 0 ∧
      (target_b_adjustments.lookup t).getD 0 = 0) ∧
    (∀ (rgb2lab : RGBImage → Option LabImage)
       (lab2rgb : LabImage → Option (List (ℚ × ℚ × ℚ)))
       (image : RGBImage) (target_tone : String) (lab_image : LabImage)
       (unit_rgb : List (ℚ × ℚ × ℚ)),
      rgb2lab image = some lab_image →
      lab2rgb (adjustLab lab_image target_tone) = some unit_rgb →
      adjust_skin_tone rgb2lab lab2rgb image target_tone =
        unit_rgb.map quantizePixel) := by
  refine ⟨?_, ?_, by decide, ?_, ?_⟩
  · intro lab_image target_tone i hi hm
    simp only [adjustLab]
    rw [getD_map_lt _ _ _ _ ((0 : ℚ), (0 : ℚ), (0 : ℚ)) hi]
    rw [if_pos hm]
  · intro lab_image
    constructor
    · intro h
      simp only [currentL]
      rw [if_pos h]
    · intro h
      simp only [currentL]
      rw [if_neg (by omega)]
  · intro t ht
    obtain ⟨-, hl, ha, hb⟩ := not_mem_lookups t ht
    simp [hl, ha, hb]
  · intro rgb2lab lab2rgb image target_tone lab_image unit_rgb hconv hinv
    simp [adjust_skin_tone, hconv, hinv]

/-- Witness for C3 at a concrete masked pixel and the Fair target. -/
theorem C3_witness :
    (adjustLab [((70 : ℚ), (10 : ℚ), (20 : ℚ))] "Fair").getD 0 (0, 0, 0) =
      (clip 0 100
         ((([((70 : ℚ), (10 : ℚ), (20 : ℚ))] : LabImage).getD 0 (0, 0, 0)).1 +
           ((target_l_values.lookup "Fair").getD 65 -
             currentL [((70 : ℚ), (10 : ℚ), (20 : ℚ))])),
       clip (-127) 127
         ((([((70 : ℚ), (10 : ℚ), (20 : ℚ))] : LabImage).getD 0 (0, 0, 0)).2.1 +
           (target_a_adjustments.lookup "Fair").getD 0),
       clip (-127) 127
         ((([((70 : ℚ), (10 : ℚ), (20 : ℚ))] : LabImage).getD 0 (0, 0, 0)).2.2 +
           (target_b_adjustments.lookup "Fair").getD 0)) :=
  C3_adjustment_behaviour.1 [((70 : ℚ), (10 : ℚ), (20 : ℚ))] "Fair" 0
    (by decide) (by decide)

/-- C5: in `adjust_skin_tone`, a pixel outside the lenient mask keeps its
Lab values exactly, and hence (for a pixelwise conversion pair whose
round trip on the raster is within the 8-bit tolerance `tol`) the returned
8-bit pixel is within `tol` of the input pixel. -/
theorem C5_unmasked_pixels_unchanged :
    ∀ (rgb2lab : RGBImage → Option LabImage)
      (lab2rgb : LabImage → Option (List (ℚ × ℚ × ℚ)))
      (labOfRGB : RGBPixel → LabPixel) (rgbOfLab : LabPixel → ℚ × ℚ × ℚ)
      (image : RGBImage) (target_tone : String) (lab_image : LabImage)
      (tol i : ℕ),
      rgb2lab image = some lab_image →
      lab_image = image.map labOfRGB →
      (∀ l : LabImage, lab2rgb l = some (l.map rgbOfLab)) →
      (∀ q ∈ image, pixDist (quantizePixel (rgbOfLab (labOfRGB q))) q ≤ tol) →
      i < image.length →
      lenientMaskPixel (lab_image.getD i (0, 0, 0)) = false →
      (adjustLab lab_image target_tone).getD i (0, 0, 0) =
        lab_image.getD i (0, 0, 0) ∧
      pixDist
        ((adjust_skin_tone rgb2lab lab2rgb image target_tone).getD i (0, 0, 0))
        (image.getD i (0, 0, 0)) ≤ tol := by
  intro rgb2lab lab2rgb labOfRGB rgbOfLab image target_tone lab_image tol i
    hconv hlab hinv hrt hi hm
  have hilab : i < lab_image.length := by
    rw [hlab, List.length_map]
    exact hi
  have hadj : (adjustLab lab_image target_tone).getD i (0, 0, 0) =
      lab_image.getD i (0, 0, 0) := by
    simp only [adjustLab]
    rw [getD_map_lt _ _ _ _ ((0 : ℚ), (0 : ℚ), (0 : ℚ)) hilab]
    rw [if_neg (by rw [hm]; simp)]
  refine ⟨hadj, ?_⟩
  have hout : adjust_skin_tone rgb2lab lab2rgb image target_tone =
      ((adjustLab lab_image target_tone).map rgbOfLab).map quantizePixel := by
    simp [adjust_skin_tone, hconv, hinv]
  have hlen1 : i < (adjustLab lab_image target_tone).length := by
    simpa [adjustLab] using hilab
  have hlen2 : i < ((adjustLab lab_image target_tone).map rgbOfLab).length := by
    simpa using hlen1
  rw [hout,
    getD_map_lt quantizePixel _ i (0, 0, 0) ((0 : ℚ), (0 : ℚ), (0 : ℚ)) hlen2,
    getD_map_lt rgbOfLab _ i ((0 : ℚ), (0 : ℚ), (0 : ℚ))
      ((0 : ℚ), (0 : ℚ), (0 : ℚ)) hlen1,
    hadj, hlab,
    getD_map_lt labOfRGB _ i ((0 : ℚ), (0 : ℚ), (0 : ℚ))
      ((0 : ℕ), (0 : ℕ), (0 : ℕ)) hi]
  apply hrt
  rw [List.getD_eq_getElem _ _ hi]
  exact List.getElem_mem hi

/-- Witness for C5 at a concrete unmasked raster with an exact round-trip
conversion pair. -/
theorem C5_witness :
    (adjustLab [((0 : ℚ), (0 : ℚ), (0 : ℚ))] "Fair").getD 0 (0, 0, 0) =
      ([((0 : ℚ), (0 : ℚ), (0 : ℚ))] : LabImage).getD 0 (0, 0, 0) ∧
    pixDist
      ((adjust_skin_tone
          (fun im => some (im.map (fun _ => ((0 : ℚ), (0 : ℚ), (0 : ℚ)))))
          (fun l => some (l.map (fun _ => ((0 : ℚ), (0 : ℚ), (0 : ℚ)))))
          [((0 : ℕ), (0 : ℕ), (0 : ℕ))] "Fair").getD 0 (0, 0, 0))
      (([((0 : ℕ), (0 : ℕ), (0 : ℕ))] : RGBImage).getD 0 (0, 0, 0)) ≤ 0 := by
  have hq : quantizeChannel 0 = 0 := by
    have h1 : clip 0 255 (0 : ℚ) = 0 := by
      unfold clip
      rw [min_eq_right (by norm_num), max_self]
    simp [quantizeChannel, h1]
  refine C5_unmasked_pixels_unchanged _ _
    (fun _ => ((0 : ℚ), (0 : ℚ), (0 : ℚ)))
    (fun _ => ((0 : ℚ), (0 : ℚ), (0 : ℚ)))
    [((0 : ℕ), (0 : ℕ), (0 : ℕ))] "Fair" [((0 : ℚ), (0 : ℚ), (0 : ℚ))] 0 0
    rfl rfl (fun _ => rfl) ?_ (by decide) (by decide)
  intro q hq2
  have : q = ((0 : ℕ), (0 : ℕ), (0 : ℕ)) := by simpa using hq2
  subst this
  simp [quantizePixel, hq, pixDist, Nat.dist_self]
